import Mathlib

/-!
Verification of the moca-nest webhook sync service.

This file shallowly embeds the core of the repository — the HubSpot
signature guard, the retry logic of the HubSpot client, the Retry
decorator, the webhook orchestrator and its upsert helpers, and the Moca
health probe — as executable Lean definitions, and proves the spec's
testable properties about them.

Conventions:
* JavaScript strings that only feed `charCodeAt`/hashing are modelled as
  `List Nat` (one entry per UTF-16 code unit / byte).
* 32-bit machine arithmetic is `Nat` reduced by `% 2^32`.
* Fallible async calls are `Except` values; injected collaborators
  (HubSpot client, repositories, Moca client) are function-typed
  environment fields.
-/

namespace MocaNest

/-! ## Signature Verifier (src/common/guards/hubspot-signature.guard.ts)

`computeSignature` is `createHash('sha256').update(secret + body).digest('hex')`;
SHA-256 itself (Node's `crypto`) is implemented here per FIPS 180-4 so the
embedding stays executable. -/

/-- Reduce to a 32-bit word, mirroring machine arithmetic. -/
def w32 (x : Nat) : Nat := x % 4294967296

/-- 32-bit right rotation. -/
def rotr32 (n x : Nat) : Nat := w32 ((x >>> n) ||| (x <<< (32 - n)))

def sha256SmallSigma0 (x : Nat) : Nat := (rotr32 7 x) ^^^ (rotr32 18 x) ^^^ (x >>> 3)

def sha256SmallSigma1 (x : Nat) : Nat := (rotr32 17 x) ^^^ (rotr32 19 x) ^^^ (x >>> 10)

def sha256BigSigma0 (x : Nat) : Nat := (rotr32 2 x) ^^^ (rotr32 13 x) ^^^ (rotr32 22 x)

def sha256BigSigma1 (x : Nat) : Nat := (rotr32 6 x) ^^^ (rotr32 11 x) ^^^ (rotr32 25 x)

def sha256Ch (e f g : Nat) : Nat := (e &&& f) ^^^ ((e ^^^ 4294967295) &&& g)

def sha256Maj (a b c : Nat) : Nat := (a &&& b) ^^^ (a &&& c) ^^^ (b &&& c)

/-- The 64 SHA-256 round constants. -/
def sha256K : List Nat :=
  [1116352408, 1899447441, 3049323471, 3921009573, 961987163,
   1508970993, 2453635748, 2870763221, 3624381080, 310598401,
   607225278, 1426881987, 1925078388, 2162078206, 2614888103,
   3248222580, 3835390401, 4022224774, 264347078, 604807628,
   770255983, 1249150122, 1555081692, 1996064986, 2554220882,
   2821834349, 2952996808, 3210313671, 3336571891, 3584528711,
   113926993, 338241895, 666307205, 773529912, 1294757372,
   1396182291, 1695183700, 1986661051, 2177026350, 2456956037,
   2730485921, 2820302411, 3259730800, 3345764771, 3516065817,
   3600352804, 4094571909, 275423344, 430227734, 506948616,
   659060556, 883997877, 958139571, 1322822218, 1537002063,
   1747873779, 1955562222, 2024104815, 2227730452, 2361852424,
   2428436474, 2756734187, 3204031479, 3329325298]

/-- SHA-256 initial hash value. -/
def sha256H0 : List Nat :=
  [1779033703, 3144134277, 1013904242, 2773480762,
   1359893119, 2600822924, 528734635, 1541459225]

/-- Append the `0x80` byte, zero padding and the 64-bit big-endian bit
length so the padded message is a multiple of 64 bytes. -/
def sha256Pad (msg : List Nat) : List Nat :=
  let len := msg.length
  let bitLen := len * 8
  let zeros := (64 - ((len + 9) % 64)) % 64
  msg ++ [0x80] ++ List.replicate zeros 0 ++
    (List.range 8).map (fun i => (bitLen >>> (8 * (7 - i))) % 256)

/-- Big-endian bytes to a word. -/
def bytesToWord (b : List Nat) : Nat := b.foldl (fun acc x => acc * 256 + x) 0

/-- The 16 big-endian 32-bit words of one 64-byte block. -/
def sha256BlockWords (block : List Nat) : List Nat :=
  (List.range 16).map (fun i => bytesToWord ((block.drop (4 * i)).take 4))

/-- Extend 16 message-schedule words to 64. -/
def sha256ExtendWords (ws : List Nat) : List Nat :=
  (List.range 48).foldl
    (fun w _ =>
      let n := w.length
      let x := w32 (w.getD (n - 16) 0 + sha256SmallSigma0 (w.getD (n - 15) 0) +
                    w.getD (n - 7) 0 + sha256SmallSigma1 (w.getD (n - 2) 0))
      w ++ [x]) ws

/-- One SHA-256 compression step over a 64-byte block. -/
def sha256CompressBlock (h : List Nat) (block : List Nat) : List Nat :=
  let w := sha256ExtendWords (sha256BlockWords block)
  let final := (List.range 64).foldl
    (fun st i =>
      let a := st.getD 0 0
      let b := st.getD 1 0
      let c := st.getD 2 0
      let d := st.getD 3 0
      let e := st.getD 4 0
      let f := st.getD 5 0
      let g := st.getD 6 0
      let hh := st.getD 7 0
      let t1 := w32 (hh + sha256BigSigma1 e + sha256Ch e f g +
                     sha256K.getD i 0 + w.getD i 0)
      let t2 := w32 (sha256BigSigma0 a + sha256Maj a b c)
      [w32 (t1 + t2), a, b, c, w32 (d + t1), e, f, g]) h
  (List.range 8).map (fun i => w32 (h.getD i 0 + final.getD i 0))

/-- SHA-256 digest of a byte list, as 32 bytes. -/
def sha256 (msg : List Nat) : List Nat :=
  let padded := sha256Pad msg
  let nBlocks := padded.length / 64
  let hFinal := (List.range nBlocks).foldl
    (fun h i => sha256CompressBlock h ((padded.drop (64 * i)).take 64)) sha256H0
  hFinal.foldr
    (fun word acc =>
      (word >>> 24) % 256 :: (word >>> 16) % 256 :: (word >>> 8) % 256 ::
        word % 256 :: acc) []

/-- Lowercase hex character code for a nibble (as produced by `digest('hex')`). -/
def hexChar (n : Nat) : Nat := if n < 10 then 48 + n else 87 + n

/-- Hex string (as char codes) of a byte list. -/
def hexDigest (bytes : List Nat) : List Nat :=
  bytes.foldr (fun b acc => hexChar (b / 16) :: hexChar (b % 16) :: acc) []

/-- `HubSpotSignatureGuard.computeSignature`: hex SHA-256 of
`webhookSecret + payload` (v1 scheme, plain hash, not HMAC). -/
def computeSignature (webhookSecret payload : List Nat) : List Nat :=
  hexDigest (sha256 (webhookSecret ++ payload))

/-- `HubSpotSignatureGuard.secureCompare`: length check, then an OR-fold of
per-character XORs compared against zero. -/
def secureCompare (a b : List Nat) : Bool :=
  if a.length ≠ b.length then false
  else ((a.zip b).foldl (fun r p => r ||| (p.1 ^^^ p.2)) 0) == 0

/-- `HubSpotSignatureGuard.canActivate` on an incoming request:
bypass outside production and when no secret is configured; reject a
missing header; otherwise compare `secureCompare(signature, expected)`.
`Except.error ()` stands for the thrown `UnauthorizedException`. -/
def canActivate (appMode : String) (webhookSecret : List Nat)
    (signature : Option (List Nat)) (requestBody : List Nat) :
    Except Unit Bool :=
  if appMode ≠ "production" then .ok true
  else if webhookSecret = [] then .ok true
  else
    match signature with
    | none => .error ()
    | some sig =>
      if secureCompare sig (computeSignature webhookSecret requestBody) then .ok true
      else .error ()

lemma lor_eq_zero_iff (x y : Nat) : x ||| y = 0 ↔ x = 0 ∧ y = 0 := by
  constructor
  · intro h
    refine ⟨Nat.zero_of_testBit_eq_false fun i => ?_,
      Nat.zero_of_testBit_eq_false fun i => ?_⟩
    · have h2 := congrArg (fun z => Nat.testBit z i) h
      simp [Nat.testBit_or] at h2
      exact h2.1
    · have h2 := congrArg (fun z => Nat.testBit z i) h
      simp [Nat.testBit_or] at h2
      exact h2.2
  · rintro ⟨rfl, rfl⟩; rfl

lemma xorFold_eq_zero_iff (l : List (Nat × Nat)) (init : Nat) :
    l.foldl (fun r p => r ||| (p.1 ^^^ p.2)) init = 0 ↔
      init = 0 ∧ ∀ p ∈ l, p.1 = p.2 := by
  induction l generalizing init with
  | nil => simp
  | cons p l ih =>
    simp only [List.foldl_cons, ih, lor_eq_zero_iff, Nat.xor_eq_zero,
      List.mem_cons]
    constructor
    · rintro ⟨⟨h0, hp⟩, hl⟩
      exact ⟨h0, fun q hq => hq.elim (fun h => h ▸ hp) (hl q)⟩
    · rintro ⟨h0, hl⟩
      exact ⟨⟨h0, hl p (Or.inl rfl)⟩, fun q hq => hl q (Or.inr hq)⟩

lemma zip_forall_eq_iff (a b : List Nat) (hlen : a.length = b.length) :
    (∀ p ∈ a.zip b, p.1 = p.2) ↔ a = b := by
  induction a generalizing b with
  | nil =>
    cases b with
    | nil => simp
    | cons y ys => simp at hlen
  | cons x xs ih =>
    cases b with
    | nil => simp at hlen
    | cons y ys =>
      simp only [List.zip_cons_cons, List.mem_cons, List.cons.injEq]
      constructor
      · intro h
        refine ⟨h (x, y) (Or.inl rfl), ?_⟩
        exact (ih ys (by simpa using hlen)).mp fun p hp => h p (Or.inr hp)
      · rintro ⟨rfl, rfl⟩
        intro p hp
        rcases hp with h | hp
        · simp [h]
        · exact (ih xs rfl).mpr rfl p hp

/-- `secureCompare` agrees with plain equality of the two char-code lists. -/
theorem secureCompare_eq_true_iff (a b : List Nat) :
    secureCompare a b = true ↔ a = b := by
  unfold secureCompare
  by_cases hlen : a.length = b.length
  · rw [if_neg (by simp [hlen])]
    simp only [beq_iff_eq]
    rw [xorFold_eq_zero_iff]
    simp only [true_and]
    exact zip_forall_eq_iff a b hlen
  · rw [if_pos hlen]
    simp only [Bool.false_eq_true, false_iff]
    intro h
    exact hlen (h ▸ rfl)

/-! ## Entities and repository upserts
(src/modules/webhook/webhook.service.ts)

Rows carry the surrogate `id` the database assigns on first insert; a
`nextId` counter stands in for UUID generation. `amount`/`price` keep the
parsed numeric value as its source string — no claim computes with it. -/

structure Contact where
  id : Nat
  firstname : String
  lastname : String
  email : String
  hubspotId : String
  deriving Repr, DecidableEq

structure Company where
  id : Nat
  hubspotId : String
  name : String
  domain : Option String
  contactId : Nat
  deriving Repr, DecidableEq

structure Deal where
  id : Nat
  hubspotId : String
  name : String
  stage : Option String
  amount : Option String
  hasLineItems : Bool
  contactId : Nat
  deriving Repr, DecidableEq

structure LineItem where
  id : Nat
  hubspotId : String
  name : String
  quantity : Nat
  price : Option String
  productId : Option String
  dealId : Nat
  deriving Repr, DecidableEq

structure ContactData where
  firstname : String
  lastname : String
  email : String
  hubspotId : String
  deriving Repr, DecidableEq

structure CompanyData where
  hubspotId : String
  name : String
  domain : Option String
  contactId : Nat
  deriving Repr, DecidableEq

structure DealData where
  hubspotId : String
  name : String
  stage : Option String
  amount : Option String
  hasLineItems : Bool
  contactId : Nat
  deriving Repr, DecidableEq

structure LineItemData where
  hubspotId : String
  name : String
  quantity : Nat
  price : Option String
  productId : Option String
  dealId : Nat
  deriving Repr, DecidableEq

/-- The dual-key `findOne({ where: [{email}, {hubspotId}] })` match of
`upsertContact`. -/
def contactMatches (d : ContactData) (c : Contact) : Bool :=
  c.email == d.email || c.hubspotId == d.hubspotId

/-- `WebhookService.upsertContact`: find the first row matching email or
hubspotId and update it in place, else append a fresh row with a new
surrogate id. Returns (table, saved row, next id). -/
def upsertContact (d : ContactData) :
    List Contact → Nat → List Contact × Contact × Nat
  | [], nid =>
    let c : Contact :=
      { id := nid, firstname := d.firstname, lastname := d.lastname,
        email := d.email, hubspotId := d.hubspotId }
    ([c], c, nid + 1)
  | c :: cs, nid =>
    if contactMatches d c then
      let c' := { c with firstname := d.firstname, lastname := d.lastname,
                         email := d.email, hubspotId := d.hubspotId }
      (c' :: cs, c', nid)
    else
      let r := upsertContact d cs nid
      (c :: r.1, r.2)

/-- `WebhookService.upsertCompany`: single natural key `hubspotId`. -/
def upsertCompany (d : CompanyData) :
    List Company → Nat → List Company × Company × Nat
  | [], nid =>
    let c : Company :=
      { id := nid, hubspotId := d.hubspotId, name := d.name,
        domain := d.domain, contactId := d.contactId }
    ([c], c, nid + 1)
  | c :: cs, nid =>
    if c.hubspotId == d.hubspotId then
      let c' := { c with name := d.name, domain := d.domain,
                         contactId := d.contactId }
      (c' :: cs, c', nid)
    else
      let r := upsertCompany d cs nid
      (c :: r.1, r.2)

/-- `WebhookService.upsertDeal`: single natural key `hubspotId`. -/
def upsertDeal (d : DealData) :
    List Deal → Nat → List Deal × Deal × Nat
  | [], nid =>
    let dl : Deal :=
      { id := nid, hubspotId := d.hubspotId, name := d.name,
        stage := d.stage, amount := d.amount,
        hasLineItems := d.hasLineItems, contactId := d.contactId }
    ([dl], dl, nid + 1)
  | dl :: ds, nid =>
    if dl.hubspotId == d.hubspotId then
      let dl' := { dl with name := d.name, stage := d.stage,
                           amount := d.amount,
                           hasLineItems := d.hasLineItems,
                           contactId := d.contactId }
      (dl' :: ds, dl', nid)
    else
      let r := upsertDeal d ds nid
      (dl :: r.1, r.2)

/-- `WebhookService.upsertLineItem`: single natural key `hubspotId`. -/
def upsertLineItem (d : LineItemData) :
    List LineItem → Nat → List LineItem × LineItem × Nat
  | [], nid =>
    let li : LineItem :=
      { id := nid, hubspotId := d.hubspotId, name := d.name,
        quantity := d.quantity, price := d.price,
        productId := d.productId, dealId := d.dealId }
    ([li], li, nid + 1)
  | li :: ls, nid =>
    if li.hubspotId == d.hubspotId then
      let li' := { li with name := d.name, quantity := d.quantity,
                           price := d.price, productId := d.productId,
                           dealId := d.dealId }
      (li' :: ls, li', nid)
    else
      let r := upsertLineItem d ls nid
      (li :: r.1, r.2)

/-- `findOne({ where: { hubspotId } })` on the deal table: first match. -/
def findDealByHubspotId (hid : String) (ds : List Deal) : Option Deal :=
  ds.find? (fun dl => dl.hubspotId == hid)

/-- `findOne({ where: { hubspotId } })` on the contact table. -/
def findContactByHubspotId (hid : String) (cs : List Contact) : Option Contact :=
  cs.find? (fun c => c.hubspotId == hid)

/-- `dealRepository.update(deal.id, { hasLineItems })`. -/
def updateDealHasLineItems (dealId : Nat) (v : Bool) (ds : List Deal) :
    List Deal :=
  ds.map (fun dl => if dl.id == dealId then { dl with hasLineItems := v } else dl)

/-! ## Sync state, environment and orchestrator
(src/modules/webhook/webhook.service.ts, both revisions) -/

/-- The local relational store plus the surrogate-id counter. -/
structure SyncState where
  contacts : List Contact
  companies : List Company
  deals : List Deal
  lineItems : List LineItem
  nextId : Nat
  deriving Repr, DecidableEq

/-- The object state the webhook orchestrator reads from
`HubSpotService.getContactById`. `ct_moca_id_database` is read by the
current `processContactEvent` although the fetch only populates
firstname/lastname/email; `none` models the resulting JS `undefined`. -/
structure HubSpotContactData where
  firstname : String
  lastname : String
  email : String
  ct_moca_id_database : Option String := none
  deriving Repr, DecidableEq

structure CompanyFetch where
  name : String
  domain : Option String
  deriving Repr, DecidableEq

structure DealFetch where
  name : String
  stage : Option String
  amount : Option String
  deriving Repr, DecidableEq

structure LineItemFetch where
  name : String
  quantity : Nat
  price : Option String
  productId : Option String
  deriving Repr, DecidableEq

/-- The injected HubSpot/Moca collaborators, as the orchestrator sees
them. The `getById` fetches throw (error = HTTP status); the association
reads catch internally and return `[]` on failure, so they are total. -/
structure SyncEnv where
  getContactById : String → Except Nat HubSpotContactData
  getContactCompanies : String → List String
  getCompanyById : String → Except Nat CompanyFetch
  getContactDeals : String → List String
  getDealById : String → Except Nat DealFetch
  getDealLineItems : String → List String
  getLineItemById : String → Except Nat LineItemFetch
  getDealContacts : String → List String
  getDealCompanies : String → List String
  mocaSyncContact : HubSpotContactData → Except Nat String

/-- `validateContactData`: the fetched contact must have a non-empty
email. -/
def validateContactData (d : HubSpotContactData) : Bool := d.email != ""

/-- Body of the per-company loop of `syncContactCompanies` /
`syncDealCompanies`: fetch the company, upsert it keyed by `hubspotId`;
a failure is caught, logged and skipped. -/
def syncOneCompany (env : SyncEnv) (contactId : Nat) (companyId : String)
    (st : SyncState) : SyncState :=
  match env.getCompanyById companyId with
  | .error _ => st
  | .ok cd =>
    let r := upsertCompany
      { hubspotId := companyId, name := cd.name, domain := cd.domain,
        contactId := contactId } st.companies st.nextId
    { st with companies := r.1, nextId := r.2.2 }

/-- `WebhookService.syncContactCompanies`: read the association list and
upsert each company, isolating per-company failures. -/
def syncContactCompanies (env : SyncEnv) (hubspotContactId : String)
    (contactId : Nat) (st : SyncState) : SyncState :=
  (env.getContactCompanies hubspotContactId).foldl
    (fun st companyId => syncOneCompany env contactId companyId st) st

/-- Body of the per-line-item loop of `syncDealLineItems`. -/
def syncOneLineItem (env : SyncEnv) (dealId : Nat) (lineItemId : String)
    (st : SyncState) : SyncState :=
  match env.getLineItemById lineItemId with
  | .error _ => st
  | .ok li =>
    let r := upsertLineItem
      { hubspotId := lineItemId, name := li.name, quantity := li.quantity,
        price := li.price, productId := li.productId, dealId := dealId }
      st.lineItems st.nextId
    { st with lineItems := r.1, nextId := r.2.2 }

/-- `WebhookService.syncDealLineItems`: upsert each line item of a deal,
isolating per-item failures. -/
def syncDealLineItems (env : SyncEnv) (dealId : Nat)
    (lineItemIds : List String) (st : SyncState) : SyncState :=
  lineItemIds.foldl (fun st liId => syncOneLineItem env dealId liId st) st

/-- Body of the per-deal loop of `syncContactDeals`: fetch the deal and
its current line-item association list, recompute `hasLineItems` from
that list, upsert the deal, then sync the line items. A failure of the
deal fetch is caught and skipped. -/
def syncOneContactDeal (env : SyncEnv) (contactId : Nat) (dealId : String)
    (st : SyncState) : SyncState :=
  match env.getDealById dealId with
  | .error _ => st
  | .ok dd =>
    let lineItemIds := env.getDealLineItems dealId
    let hasLineItems := lineItemIds.length > 0
    let r := upsertDeal
      { hubspotId := dealId, name := dd.name, stage := dd.stage,
        amount := dd.amount, hasLineItems := hasLineItems,
        contactId := contactId } st.deals st.nextId
    let st' := { st with deals := r.1, nextId := r.2.2 }
    if hasLineItems then syncDealLineItems env r.2.1.id lineItemIds st'
    else st'

/-- `WebhookService.syncContactDeals`. -/
def syncContactDeals (env : SyncEnv) (hubspotContactId : String)
    (contactId : Nat) (st : SyncState) : SyncState :=
  (env.getContactDeals hubspotContactId).foldl
    (fun st dealId => syncOneContactDeal env contactId dealId st) st

/-- `WebhookService.processContactEvent`, full-cascade revision: fetch
the contact, validate, upsert, then sync companies and deals (each of
which swallows its own failures). -/
def processContactEventCascade (env : SyncEnv) (contactId : String)
    (st : SyncState) : Except Nat Unit × SyncState :=
  match env.getContactById contactId with
  | .error e => (.error e, st)
  | .ok hc =>
    if validateContactData hc then
      let r := upsertContact
        { firstname := hc.firstname, lastname := hc.lastname,
          email := hc.email, hubspotId := contactId } st.contacts st.nextId
      let st1 := { st with contacts := r.1, nextId := r.2.2 }
      let st2 := syncContactCompanies env contactId r.2.1.id st1
      let st3 := syncContactDeals env contactId r.2.1.id st2
      (.ok (), st3)
    else
      (.error 422, st)

/-! ## Moca health probe and the current contact path
(src/modules/moca/moca.service.ts, src/modules/webhook/webhook.service.ts) -/

/-- `MocaService.ping`: `return await Promise.resolve(true)` — the catch
branch is dead, the probe always reports the API up. -/
def mocaPing : Bool := true

/-- `WebhookService.mocaHealh`: awaits `Promise.resolve(true)`; again the
catch branch is dead and the result is always `true`. -/
def mocaHealh : Bool := true

/-- The value `processContactEvent` actually branches on: `mocaHealh()` is
called without `await`, so `isAPiMocaUp` is the pending Promise object,
which is truthy regardless of what the probe would resolve to. -/
def mocaGateValue : Bool := true

/-- `WebhookService.syncContactToMoca`, current revision: call the Moca
client, swallow any failure; the `contactRepository.update` calls that
would record `mocaUserId`/`syncedAt`/`syncStatus` are commented out, so
the local store is untouched on both branches. Returns whether the sync
call succeeded (observable only in logs). -/
def syncContactToMoca (env : SyncEnv) (hc : HubSpotContactData)
    (st : SyncState) : Bool × SyncState :=
  match env.mocaSyncContact hc with
  | .ok _ => (true, st)
  | .error _ => (false, st)

/-- Outcome of the current `processContactEvent`: result, store, and
whether the Moca-down skip branch ran. -/
structure CurContactOutcome where
  result : Except Nat Unit
  state : SyncState
  skippedForHealth : Bool
  deriving Repr

/-- `WebhookService.processContactEvent`, current revision: fetch and
validate the contact, require `ct_moca_id_database` (which the fetch
never populates), branch on the unawaited health probe, and in the
reachable branch only fire `syncContactToMoca` — the local upsert of
the happy path is commented out. -/
def processContactEventCurrent (env : SyncEnv) (objectId : String)
    (st : SyncState) : CurContactOutcome :=
  match env.getContactById objectId with
  | .error e => ⟨.error e, st, false⟩
  | .ok hc =>
    if !validateContactData hc then ⟨.error 422, st, false⟩
    else if hc.ct_moca_id_database.getD "" == "" then ⟨.error 422, st, false⟩
    else if mocaGateValue = false then
      let r := upsertContact
        { firstname := hc.firstname, lastname := hc.lastname,
          email := hc.email, hubspotId := objectId } st.contacts st.nextId
      ⟨.ok (), { st with contacts := r.1, nextId := r.2.2 }, true⟩
    else
      let r := syncContactToMoca env hc st
      ⟨.ok (), r.2, false⟩

/-! ## Deal event path (current revision) -/

/-- Per-company loop of `syncDealCompanies` — identical isolation to
`syncContactCompanies`. -/
def syncDealCompanies (env : SyncEnv) (companyIds : List String)
    (contactId : Nat) (st : SyncState) : SyncState :=
  companyIds.foldl (fun st companyId => syncOneCompany env contactId companyId st) st

/-- Steps 5–6 of `WebhookService.processDealEvent`, factored out under a
name: upsert the deal with `hasLineItems := false`, then fetch the
line-item associations and, when non-empty, sync them and patch
`hasLineItems := true` on the saved row. -/
def processDealEventSteps56 (env : SyncEnv) (dealId : String)
    (dd : DealFetch) (contactId : Nat) (st2 : SyncState) : SyncState :=
  let r := upsertDeal
    { hubspotId := dealId, name := dd.name, stage := dd.stage,
      amount := dd.amount, hasLineItems := false,
      contactId := contactId } st2.deals st2.nextId
  let st3 := { st2 with deals := r.1, nextId := r.2.2 }
  let lineItemIds := env.getDealLineItems dealId
  if lineItemIds.length > 0 then
    let st' := syncDealLineItems env r.2.1.id lineItemIds st3
    { st' with deals := updateDealHasLineItems r.2.1.id true st'.deals }
  else st3

/-- `WebhookService.processDealEvent`: fetch the deal; require at least
one associated contact; ensure the primary contact exists locally
(fetch+upsert if missing); sync deal companies; then steps 5–6 above. -/
def processDealEvent (env : SyncEnv) (dealId : String)
    (st : SyncState) : Except Nat Unit × SyncState :=
  match env.getDealById dealId with
  | .error e => (.error e, st)
  | .ok dd =>
    match env.getDealContacts dealId with
    | [] => (.ok (), st)
    | primaryContactId :: _ =>
      let contactRes : Except Nat (Contact × SyncState) :=
        match findContactByHubspotId primaryContactId st.contacts with
        | some c => .ok (c, st)
        | none =>
          match env.getContactById primaryContactId with
          | .error e => .error e
          | .ok hc =>
            let r := upsertContact
              { firstname := hc.firstname, lastname := hc.lastname,
                email := hc.email, hubspotId := primaryContactId }
              st.contacts st.nextId
            .ok (r.2.1, { st with contacts := r.1, nextId := r.2.2 })
      match contactRes with
      | .error e => (.error e, st)
      | .ok (contact, st1) =>
        let companyIds := env.getDealCompanies dealId
        let st2 :=
          if companyIds.length > 0 then
            syncDealCompanies env companyIds contact.id st1
          else st1
        (.ok (), processDealEventSteps56 env dealId dd contact.id st2)

/-! ## Webhook batch loops -/

/-- One webhook event as validated by `HubSpotWebhookEventDto`. -/
structure WebhookEvent where
  eventId : Nat
  subscriptionType : String
  objectId : Nat
  propertyName : String
  propertyValue : String
  occurredAt : Nat
  attemptNumber : Nat
  deriving Repr, DecidableEq

/-- `WebhookService.processContactWebhook`: loop over the batch, process
each event inside try/catch, count successes, never rethrow. Returns the
count, the final store and the per-event success flags (the processor is
the injected `processContactEvent`; a failing event may still have
changed the store before throwing, so it returns result and state). -/
def processContactWebhook
    (procEvent : WebhookEvent → SyncState → Except Nat Unit × SyncState) :
    List WebhookEvent → SyncState → Nat × SyncState × List Bool
  | [], st => (0, st, [])
  | e :: es, st =>
    let r := procEvent e st
    let rest := processContactWebhook procEvent es r.2
    match r.1 with
    | .ok _ => (rest.1 + 1, rest.2.1, true :: rest.2.2)
    | .error _ => (rest.1, rest.2.1, false :: rest.2.2)

/-- `WebhookService.processDealCreationWebhook`: same loop shape over
`processDealEvent(event.objectId.toString())`. -/
def processDealCreationWebhook
    (procEvent : String → SyncState → Except Nat Unit × SyncState) :
    List WebhookEvent → SyncState → Nat × SyncState × List Bool
  | [], st => (0, st, [])
  | e :: es, st =>
    let r := procEvent (toString e.objectId) st
    let rest := processDealCreationWebhook procEvent es r.2
    match r.1 with
    | .ok _ => (rest.1 + 1, rest.2.1, true :: rest.2.2)
    | .error _ => (rest.1, rest.2.1, false :: rest.2.2)

/-! ## HubSpot client retry loop
(src/modules/hubspot/hubspot.service.ts)

`getContactById` is the only client operation with a retry loop; the
attempt stream abstracts what each underlying SDK call does. Config
defaults come from src/config/hubspot config:
`HUBSPOT_RETRY_ATTEMPTS || '3'`, `HUBSPOT_RETRY_DELAY || '1000'`. -/

def hubspotRetryAttemptsDefault : Nat := 3

def hubspotRetryDelayDefault : Nat := 1000

/-- What one underlying SDK call does: succeed, or fail with an optional
HTTP status and optional `retry-after` header (seconds). -/
inductive FetchOutcome (α : Type) where
  | ok (a : α)
  | err (status : Option Nat) (retryAfter : Option Nat)
  deriving Repr, DecidableEq

/-- Trace of one wrapped operation: final result (error = thrown HTTP
status), how many times the underlying call ran, and the sleeps taken
between attempts, in ms. -/
structure RunTrace (α : Type) where
  result : Except Nat α
  invocations : Nat
  delays : List Nat
  deriving Repr

/-- The body of `getContactById`'s `for` loop, recursing on the remaining
iterations (`remaining + 1` iterations left means this is attempt
`attempt` of `retryAttempts`). On 429: sleep `retryAfter` seconds if the
header is present, else `retryDelay * 2^(attempt-1)`, and continue — even
on the last attempt. On 404: throw immediately. Any other failure: sleep
`retryDelay * 2^(attempt-1)` and retry unless this was the last attempt.
Exhaustion throws 503. -/
def getContactByIdGo (retryDelay : Nat) (responses : Nat → FetchOutcome α) :
    Nat → Nat → RunTrace α
  | 0, _ => ⟨.error 503, 0, []⟩
  | remaining + 1, attempt =>
    match responses attempt with
    | .ok a => ⟨.ok a, 1, []⟩
    | .err status retryAfter =>
      if status = some 429 then
        let wait :=
          match retryAfter with
          | some ra => ra * 1000
          | none => retryDelay * 2 ^ (attempt - 1)
        let r := getContactByIdGo retryDelay responses remaining (attempt + 1)
        ⟨r.result, r.invocations + 1, wait :: r.delays⟩
      else if status = some 404 then
        ⟨.error 404, 1, []⟩
      else
        if remaining = 0 then ⟨.error 503, 1, []⟩
        else
          let wait := retryDelay * 2 ^ (attempt - 1)
          let r := getContactByIdGo retryDelay responses remaining (attempt + 1)
          ⟨r.result, r.invocations + 1, wait :: r.delays⟩

/-- `HubSpotService.getContactById`: run the loop from attempt 1. -/
def getContactById (retryAttempts retryDelay : Nat)
    (responses : Nat → FetchOutcome α) : RunTrace α :=
  getContactByIdGo retryDelay responses retryAttempts 1

/-- `HubSpotService.getCompanyById`: a single try/catch around one SDK
call; any failure is rethrown as 503, never retried. -/
def getCompanyById (response : FetchOutcome CompanyFetch) :
    RunTrace CompanyFetch :=
  match response with
  | .ok a => ⟨.ok a, 1, []⟩
  | .err _ _ => ⟨.error 503, 1, []⟩

/-- `HubSpotService.getDealById`: single attempt, failures → 503. -/
def getDealById (response : FetchOutcome DealFetch) : RunTrace DealFetch :=
  match response with
  | .ok a => ⟨.ok a, 1, []⟩
  | .err _ _ => ⟨.error 503, 1, []⟩

/-- `HubSpotService.getLineItemById`: single attempt, failures → 503. -/
def getLineItemById (response : FetchOutcome LineItemFetch) :
    RunTrace LineItemFetch :=
  match response with
  | .ok a => ⟨.ok a, 1, []⟩
  | .err _ _ => ⟨.error 503, 1, []⟩

/-! ## The `Retry` decorator (src/common/constants/database-errors.ts) -/

/-- An error as the decorator classifies it: whether it is a
`HubSpotApiError`, its status code, and its `retryable` flag. -/
structure HsError where
  isHubSpotApiError : Bool
  statusCode : Nat
  retryable : Bool
  deriving Repr, DecidableEq

structure RetryOptions where
  maxAttempts : Nat
  initialDelay : Nat
  maxDelay : Nat
  backoffMultiplier : Nat
  retryableStatusCodes : List Nat
  deriving Repr, DecidableEq

/-- `DEFAULT_OPTIONS` of the decorator. -/
def defaultRetryOptions : RetryOptions :=
  { maxAttempts := 3, initialDelay := 1000, maxDelay := 30000,
    backoffMultiplier := 2, retryableStatusCodes := [429, 500, 502, 503, 504] }

/-- The decorator's retryability test: must be a `HubSpotApiError` and
either carry `retryable` or have a status in the configured list. -/
def isRetryableError (cfg : RetryOptions) (e : HsError) : Bool :=
  e.isHubSpotApiError &&
    (e.retryable || cfg.retryableStatusCodes.contains e.statusCode)

/-- Trace of the decorated method (result carries the thrown error). -/
structure RetryTrace (α : Type) where
  result : Except HsError α
  invocations : Nat
  delays : List Nat
  deriving Repr

/-- The decorator's loop: on failure, rethrow when this was the last
attempt or the error is not retryable; otherwise update
`delay := min(delay * backoffMultiplier, maxDelay)` — the 429 branch is
textually separate in the source but computes the same value, and the
`Retry-After` header is never consulted — sleep, and try again. The
`fuel = 0` base is the unreachable `throw lastError ?? ...` tail. -/
def retryGo (cfg : RetryOptions) (responses : Nat → Except HsError α) :
    Nat → Nat → Nat → RetryTrace α
  | 0, _, _ => ⟨.error ⟨false, 0, false⟩, 0, []⟩
  | fuel + 1, attempt, delay =>
    match responses attempt with
    | .ok a => ⟨.ok a, 1, []⟩
    | .error e =>
      if attempt = cfg.maxAttempts || !isRetryableError cfg e then
        ⟨.error e, 1, []⟩
      else
        let delay' := min (delay * cfg.backoffMultiplier) cfg.maxDelay
        let r := retryGo cfg responses fuel (attempt + 1) delay'
        ⟨r.result, r.invocations + 1, delay' :: r.delays⟩

/-- A method wrapped in `@Retry(cfg)`: run from attempt 1 with
`delay = initialDelay`. -/
def retryRun (cfg : RetryOptions) (responses : Nat → Except HsError α) :
    RetryTrace α :=
  retryGo cfg responses cfg.maxAttempts 1 cfg.initialDelay

/-- The sleep sequence the decorator's `delay` update produces when every
attempt fails with a retryable error: each sleep is
`min(previous * backoffMultiplier, maxDelay)` — note the multiplier is
applied before the very first sleep. -/
def decoratorDelays (cfg : RetryOptions) (delay : Nat) : Nat → List Nat
  | 0 => []
  | k + 1 =>
    let delay' := min (delay * cfg.backoffMultiplier) cfg.maxDelay
    delay' :: decoratorDelays cfg delay' k

/-! ## Concrete fixtures (used by witnesses) -/

/-- A remote contact as the cascade path fetches it. -/
def demoHc : HubSpotContactData :=
  { firstname := "A", lastname := "B", email := "a@b.c",
    ct_moca_id_database := some "m1" }

/-- Environment whose deal `d1` currently has zero line-item
associations. -/
def envNoLineItems : SyncEnv :=
  { getContactById := fun _ => .ok demoHc
    getContactCompanies := fun _ => []
    getCompanyById := fun _ => .error 503
    getContactDeals := fun _ => []
    getDealById := fun _ => .ok { name := "Deal", stage := none, amount := none }
    getDealLineItems := fun _ => []
    getLineItemById := fun _ => .error 503
    getDealContacts := fun _ => ["c1"]
    getDealCompanies := fun _ => []
    mocaSyncContact := fun _ => .ok "m1" }

/-- Environment with three associated companies where fetching the
second one always fails. -/
def envCompanyTwoFails : SyncEnv :=
  { envNoLineItems with
    getContactCompanies := fun _ => ["x", "y", "z"]
    getCompanyById := fun cid =>
      if cid = "y" then .error 500 else .ok { name := cid, domain := none } }

/-- A store whose deal `d1` was previously stored with
`hasLineItems := true`. -/
def stStale : SyncState :=
  { contacts := [{ id := 1, firstname := "A", lastname := "B",
                   email := "a@b.c", hubspotId := "c1" }]
    companies := []
    deals := [{ id := 2, hubspotId := "d1", name := "Deal", stage := none,
                amount := none, hasLineItems := true, contactId := 1 }]
    lineItems := []
    nextId := 3 }

def stEmpty : SyncState :=
  { contacts := [], companies := [], deals := [], lineItems := [], nextId := 0 }

/-! ## Theorems -/

/-- Claim C1: in production with a configured secret, the signature guard
accepts a request exactly when the header signature equals the hex
SHA-256 digest of `secret + body`; any signature that differs from that
digest in at least one character is rejected. -/
theorem signature_guard_accepts_exactly_v1_digest
    (secret body sig : List Nat) (hsecret : secret ≠ []) :
    canActivate "production" secret (some sig) body = .ok true ↔
      sig = computeSignature secret body := by
  by_cases h : secureCompare sig (computeSignature secret body)
  · simp only [canActivate, ne_eq, not_true_eq_false, if_false,
      if_neg hsecret, h, if_true]
    simp [(secureCompare_eq_true_iff _ _).mp h]
  · simp only [canActivate, ne_eq, not_true_eq_false, if_false,
      if_neg hsecret]
    rw [if_neg h]
    constructor
    · intro hcontra
      cases hcontra
    · intro heq
      exact absurd ((secureCompare_eq_true_iff _ _).mpr heq) h

theorem signature_guard_accepts_exactly_v1_digest_witness :
    ([107] : List Nat) ≠ [] ∧
      canActivate "production" [107] (some (computeSignature [107] [98])) [98] =
        .ok true :=
  ⟨by decide,
    (signature_guard_accepts_exactly_v1_digest [107] [98]
      (computeSignature [107] [98]) (by decide)).mpr rfl⟩

lemma upsertContact_idempotent (d : ContactData) (s : List Contact) (nid : Nat) :
    upsertContact d (upsertContact d s nid).1 (upsertContact d s nid).2.2 =
      upsertContact d s nid := by
  induction s with
  | nil => simp [upsertContact, contactMatches]
  | cons c cs ih =>
    by_cases h : c.email = d.email ∨ c.hubspotId = d.hubspotId
    · simp [upsertContact, contactMatches, h]
    · simp [upsertContact, contactMatches, h, ih]

lemma upsertCompany_idempotent (d : CompanyData) (s : List Company) (nid : Nat) :
    upsertCompany d (upsertCompany d s nid).1 (upsertCompany d s nid).2.2 =
      upsertCompany d s nid := by
  induction s with
  | nil => simp [upsertCompany]
  | cons c cs ih =>
    by_cases h : c.hubspotId = d.hubspotId
    · simp [upsertCompany, h]
    · simp [upsertCompany, h, ih]

lemma upsertDeal_idempotent (d : DealData) (s : List Deal) (nid : Nat) :
    upsertDeal d (upsertDeal d s nid).1 (upsertDeal d s nid).2.2 =
      upsertDeal d s nid := by
  induction s with
  | nil => simp [upsertDeal]
  | cons c cs ih =>
    by_cases h : c.hubspotId = d.hubspotId
    · simp [upsertDeal, h]
    · simp [upsertDeal, h, ih]

lemma upsertLineItem_idempotent (d : LineItemData) (s : List LineItem) (nid : Nat) :
    upsertLineItem d (upsertLineItem d s nid).1 (upsertLineItem d s nid).2.2 =
      upsertLineItem d s nid := by
  induction s with
  | nil => simp [upsertLineItem]
  | cons c cs ih =>
    by_cases h : c.hubspotId = d.hubspotId
    · simp [upsertLineItem, h]
    · simp [upsertLineItem, h, ih]

/-- Claim C3: every upsert resolves an existing row by its natural key (email
or hubspotId for contacts, hubspotId for companies/deals/line items)
and updates it in place, so re-applying the same upsert leaves the
table, the saved row and the surrogate-id counter unchanged — no second
row is ever inserted for the same key. -/
theorem upserts_idempotent_by_natural_key :
    (∀ (d : ContactData) (s : List Contact) (nid : Nat),
        upsertContact d (upsertContact d s nid).1 (upsertContact d s nid).2.2 =
          upsertContact d s nid) ∧
    (∀ (d : CompanyData) (s : List Company) (nid : Nat),
        upsertCompany d (upsertCompany d s nid).1 (upsertCompany d s nid).2.2 =
          upsertCompany d s nid) ∧
    (∀ (d : DealData) (s : List Deal) (nid : Nat),
        upsertDeal d (upsertDeal d s nid).1 (upsertDeal d s nid).2.2 =
          upsertDeal d s nid) ∧
    (∀ (d : LineItemData) (s : List LineItem) (nid : Nat),
        upsertLineItem d (upsertLineItem d s nid).1 (upsertLineItem d s nid).2.2 =
          upsertLineItem d s nid) :=
  ⟨upsertContact_idempotent, upsertCompany_idempotent,
    upsertDeal_idempotent, upsertLineItem_idempotent⟩

lemma processContactWebhook_spec
    (procEvent : WebhookEvent → SyncState → Except Nat Unit × SyncState)
    (events : List WebhookEvent) (st : SyncState) :
    (processContactWebhook procEvent events st).2.2.length = events.length ∧
      (processContactWebhook procEvent events st).1 =
        ((processContactWebhook procEvent events st).2.2.filter id).length := by
  induction events generalizing st with
  | nil => simp [processContactWebhook]
  | cons e es ih =>
    have ih' := ih (procEvent e st).2
    cases h : (procEvent e st).1 with
    | ok u => simp [processContactWebhook, h, ih'.1, ih'.2]
    | error err => simp [processContactWebhook, h, ih'.1, ih'.2]

lemma processDealCreationWebhook_spec
    (procEvent : String → SyncState → Except Nat Unit × SyncState)
    (events : List WebhookEvent) (st : SyncState) :
    (processDealCreationWebhook procEvent events st).2.2.length = events.length ∧
      (processDealCreationWebhook procEvent events st).1 =
        ((processDealCreationWebhook procEvent events st).2.2.filter id).length := by
  induction events generalizing st with
  | nil => simp [processDealCreationWebhook]
  | cons e es ih =>
    have ih' := ih (procEvent (toString e.objectId) st).2
    cases h : (procEvent (toString e.objectId) st).1 with
    | ok u => simp [processDealCreationWebhook, h, ih'.1, ih'.2]
    | error err => simp [processDealCreationWebhook, h, ih'.1, ih'.2]

/-- Claim C2: both batch loops are total (a per-event failure is caught, never
rethrown), attempt every event of the batch — one recorded outcome per
event, so a failure at event N never stops events N+1..M — and return
exactly the number of events whose processing succeeded. -/
theorem batch_loops_isolate_event_failures_and_count_successes :
    (∀ (procEvent : WebhookEvent → SyncState → Except Nat Unit × SyncState)
       (events : List WebhookEvent) (st : SyncState),
       (processContactWebhook procEvent events st).2.2.length = events.length ∧
         (processContactWebhook procEvent events st).1 =
           ((processContactWebhook procEvent events st).2.2.filter id).length) ∧
    (∀ (procEvent : String → SyncState → Except Nat Unit × SyncState)
       (events : List WebhookEvent) (st : SyncState),
       (processDealCreationWebhook procEvent events st).2.2.length = events.length ∧
         (processDealCreationWebhook procEvent events st).1 =
           ((processDealCreationWebhook procEvent events st).2.2.filter id).length) :=
  ⟨processContactWebhook_spec, processDealCreationWebhook_spec⟩

/-! ### Store-component preservation lemmas for the sync helpers -/

lemma syncOneCompany_contacts (env : SyncEnv) (cid : Nat) (coid : String)
    (st : SyncState) : (syncOneCompany env cid coid st).contacts = st.contacts := by
  unfold syncOneCompany
  cases env.getCompanyById coid <;> rfl

lemma syncOneCompany_deals (env : SyncEnv) (cid : Nat) (coid : String)
    (st : SyncState) : (syncOneCompany env cid coid st).deals = st.deals := by
  unfold syncOneCompany
  cases env.getCompanyById coid <;> rfl

lemma syncOneLineItem_contacts (env : SyncEnv) (did : Nat) (liid : String)
    (st : SyncState) : (syncOneLineItem env did liid st).contacts = st.contacts := by
  unfold syncOneLineItem
  cases env.getLineItemById liid <;> rfl

lemma syncOneLineItem_deals (env : SyncEnv) (did : Nat) (liid : String)
    (st : SyncState) : (syncOneLineItem env did liid st).deals = st.deals := by
  unfold syncOneLineItem
  cases env.getLineItemById liid <;> rfl

lemma foldl_pres {β γ : Type} (f : SyncState → β → SyncState)
    (proj : SyncState → γ) (hstep : ∀ st b, proj (f st b) = proj st) :
    ∀ (l : List β) (st : SyncState), proj (l.foldl f st) = proj st := by
  intro l
  induction l with
  | nil => intro st; rfl
  | cons b l ih => intro st; rw [List.foldl_cons, ih, hstep]

lemma syncContactCompanies_contacts (env : SyncEnv) (hcid : String) (cid : Nat)
    (st : SyncState) :
    (syncContactCompanies env hcid cid st).contacts = st.contacts :=
  foldl_pres _ SyncState.contacts
    (fun st b => syncOneCompany_contacts env cid b st) _ st

lemma syncDealCompanies_deals (env : SyncEnv) (ids : List String) (cid : Nat)
    (st : SyncState) : (syncDealCompanies env ids cid st).deals = st.deals :=
  foldl_pres _ SyncState.deals
    (fun st b => syncOneCompany_deals env cid b st) ids st

lemma syncDealLineItems_contacts (env : SyncEnv) (did : Nat)
    (ids : List String) (st : SyncState) :
    (syncDealLineItems env did ids st).contacts = st.contacts :=
  foldl_pres _ SyncState.contacts
    (fun st b => syncOneLineItem_contacts env did b st) ids st

lemma syncDealLineItems_deals (env : SyncEnv) (did : Nat)
    (ids : List String) (st : SyncState) :
    (syncDealLineItems env did ids st).deals = st.deals :=
  foldl_pres _ SyncState.deals
    (fun st b => syncOneLineItem_deals env did b st) ids st

lemma syncOneContactDeal_contacts (env : SyncEnv) (cid : Nat) (dealId : String)
    (st : SyncState) :
    (syncOneContactDeal env cid dealId st).contacts = st.contacts := by
  unfold syncOneContactDeal
  cases env.getDealById dealId with
  | error e => rfl
  | ok dd =>
    simp only []
    split
    · rw [syncDealLineItems_contacts]
    · rfl

lemma syncContactDeals_contacts (env : SyncEnv) (hcid : String) (cid : Nat)
    (st : SyncState) :
    (syncContactDeals env hcid cid st).contacts = st.contacts :=
  foldl_pres _ SyncState.contacts
    (fun st b => syncOneContactDeal_contacts env cid b st) _ st

/-! ### Find-after-upsert lemmas for deals -/

lemma upsertDeal_find (d : DealData) (ds : List Deal) (nid : Nat) :
    findDealByHubspotId d.hubspotId (upsertDeal d ds nid).1 =
      some (upsertDeal d ds nid).2.1 := by
  induction ds with
  | nil =>
    simp [upsertDeal, findDealByHubspotId]
  | cons dl ds ih =>
    by_cases h : dl.hubspotId = d.hubspotId
    · simp [upsertDeal, h, findDealByHubspotId]
    · simp only [upsertDeal, h, if_false, Bool.false_eq_true,
        beq_iff_eq, if_neg h]
      rw [findDealByHubspotId, List.find?_cons_of_neg _ (by simpa using h)]
      exact ih

/-- `upsertDeal_find` with the `DealData` spelled out, so the key can be
matched syntactically at a call site. -/
lemma upsertDeal_find_mk (hid nm : String) (stg amt : Option String)
    (hli : Bool) (cid : Nat) (ds : List Deal) (nid : Nat) :
    findDealByHubspotId hid (upsertDeal ⟨hid, nm, stg, amt, hli, cid⟩ ds nid).1 =
      some (upsertDeal ⟨hid, nm, stg, amt, hli, cid⟩ ds nid).2.1 :=
  upsertDeal_find ⟨hid, nm, stg, amt, hli, cid⟩ ds nid

lemma upsertDeal_saved_hasLineItems (d : DealData) (ds : List Deal) (nid : Nat) :
    (upsertDeal d ds nid).2.1.hasLineItems = d.hasLineItems := by
  induction ds with
  | nil => rfl
  | cons dl ds ih =>
    by_cases h : dl.hubspotId = d.hubspotId
    · simp [upsertDeal, h]
    · simpa [upsertDeal, h] using ih

lemma upsertDeal_saved_hasLineItems_mk (hid nm : String)
    (stg amt : Option String) (hli : Bool) (cid : Nat) (ds : List Deal)
    (nid : Nat) :
    (upsertDeal ⟨hid, nm, stg, amt, hli, cid⟩ ds nid).2.1.hasLineItems = hli :=
  upsertDeal_saved_hasLineItems ⟨hid, nm, stg, amt, hli, cid⟩ ds nid

lemma findDeal_updateDealHasLineItems (hid : String) (idv : Nat) (v : Bool)
    (ds : List Deal) :
    findDealByHubspotId hid (updateDealHasLineItems idv v ds) =
      (findDealByHubspotId hid ds).map
        (fun dl => if dl.id == idv then { dl with hasLineItems := v } else dl) := by
  induction ds with
  | nil => rfl
  | cons dl ds ih =>
    by_cases hmatch : dl.hubspotId = hid
    · by_cases hid2 : dl.id = idv
      · simp [updateDealHasLineItems, findDealByHubspotId, hmatch, hid2]
      · simp [updateDealHasLineItems, findDealByHubspotId, hmatch, hid2]
    · by_cases hid2 : dl.id = idv
      · simp only [updateDealHasLineItems, List.map_cons] at ih ⊢
        rw [findDealByHubspotId, List.find?_cons_of_neg _ (by simp [hmatch, hid2]),
          findDealByHubspotId, List.find?_cons_of_neg _ (by simp [hmatch])]
        exact ih
      · simp only [updateDealHasLineItems, List.map_cons] at ih ⊢
        rw [findDealByHubspotId, List.find?_cons_of_neg _ (by simp [hmatch, hid2]),
          findDealByHubspotId, List.find?_cons_of_neg _ (by simp [hmatch])]
        exact ih

lemma syncOneContactDeal_hasLineItems (env : SyncEnv) (cid : Nat)
    (dealId : String) (st : SyncState) (dd : DealFetch)
    (hok : env.getDealById dealId = .ok dd) :
    ∃ dl, findDealByHubspotId dealId
        (syncOneContactDeal env cid dealId st).deals = some dl ∧
      dl.hasLineItems = decide ((env.getDealLineItems dealId).length > 0) := by
  unfold syncOneContactDeal
  rw [hok]
  dsimp only
  split
  · rw [syncDealLineItems_deals]
    dsimp only
    rw [upsertDeal_find_mk]
    exact ⟨_, rfl, upsertDeal_saved_hasLineItems_mk ..⟩
  · dsimp only
    rw [upsertDeal_find_mk]
    exact ⟨_, rfl, upsertDeal_saved_hasLineItems_mk ..⟩

lemma processDealEventSteps56_hasLineItems (env : SyncEnv) (dealId : String)
    (dd : DealFetch) (cid : Nat) (st2 : SyncState) :
    ∃ dl, findDealByHubspotId dealId
        (processDealEventSteps56 env dealId dd cid st2).deals = some dl ∧
      dl.hasLineItems = decide ((env.getDealLineItems dealId).length > 0) := by
  unfold processDealEventSteps56
  dsimp only
  split
  · rename_i h
    rw [findDeal_updateDealHasLineItems, syncDealLineItems_deals]
    dsimp only
    rw [upsertDeal_find_mk]
    refine ⟨_, rfl, ?_⟩
    simp only [beq_self_eq_true, if_true]
    simp [h]
  · rename_i h
    dsimp only
    rw [upsertDeal_find_mk]
    refine ⟨_, rfl, ?_⟩
    rw [upsertDeal_saved_hasLineItems_mk]
    simp [h]

lemma processDealEvent_hasLineItems (env : SyncEnv) (dealId : String)
    (st : SyncState) (dd : DealFetch) (c : String) (rest : List String)
    (hdeal : env.getDealById dealId = .ok dd)
    (hcontacts : env.getDealContacts dealId = c :: rest)
    (hok : (processDealEvent env dealId st).1 = .ok ()) :
    ∃ dl, findDealByHubspotId dealId
        (processDealEvent env dealId st).2.deals = some dl ∧
      dl.hasLineItems = decide ((env.getDealLineItems dealId).length > 0) := by
  unfold processDealEvent at hok ⊢
  rw [hdeal, hcontacts] at hok ⊢
  cases hfind : findContactByHubspotId c st.contacts with
  | some c0 =>
    simp only [hfind]
    exact processDealEventSteps56_hasLineItems ..
  | none =>
    cases hget : env.getContactById c with
    | error e => simp [hfind, hget] at hok
    | ok hc =>
      simp only [hfind, hget]
      exact processDealEventSteps56_hasLineItems ..

/-- Claim C6: whenever a deal is synced — by the contact path's per-deal loop
or by the deal-event path — the stored row's `hasLineItems` equals
whether the line-item association list fetched during that same sync is
non-empty, never a previously stored value. -/
theorem deal_hasLineItems_recomputed_on_every_sync :
    (∀ (env : SyncEnv) (cid : Nat) (dealId : String) (st : SyncState)
       (dd : DealFetch),
       env.getDealById dealId = .ok dd →
       ∃ dl, findDealByHubspotId dealId
           (syncOneContactDeal env cid dealId st).deals = some dl ∧
         dl.hasLineItems = decide ((env.getDealLineItems dealId).length > 0)) ∧
    (∀ (env : SyncEnv) (dealId : String) (st : SyncState) (dd : DealFetch)
       (c : String) (rest : List String),
       env.getDealById dealId = .ok dd →
       env.getDealContacts dealId = c :: rest →
       (processDealEvent env dealId st).1 = .ok () →
       ∃ dl, findDealByHubspotId dealId
           (processDealEvent env dealId st).2.deals = some dl ∧
         dl.hasLineItems = decide ((env.getDealLineItems dealId).length > 0)) :=
  ⟨syncOneContactDeal_hasLineItems, processDealEvent_hasLineItems⟩

theorem deal_hasLineItems_recomputed_on_every_sync_witness :
    envNoLineItems.getDealById "d1" =
        .ok { name := "Deal", stage := none, amount := none } ∧
      envNoLineItems.getDealContacts "d1" = "c1" :: [] ∧
      (processDealEvent envNoLineItems "d1" stStale).1 = .ok () ∧
      ∃ dl, findDealByHubspotId "d1"
          (processDealEvent envNoLineItems "d1" stStale).2.deals = some dl ∧
        dl.hasLineItems =
          decide ((envNoLineItems.getDealLineItems "d1").length > 0) :=
  ⟨rfl, rfl, rfl,
    deal_hasLineItems_recomputed_on_every_sync.2 envNoLineItems "d1" stStale
      { name := "Deal", stage := none, amount := none } "c1" [] rfl rfl rfl⟩

lemma syncCompanies_skip_failures (env : SyncEnv) (cid : Nat) :
    ∀ (ids : List String) (st : SyncState),
      ids.foldl (fun st companyId => syncOneCompany env cid companyId st) st =
        (ids.filter (fun companyId => (env.getCompanyById companyId).isOk)).foldl
          (fun st companyId => syncOneCompany env cid companyId st) st := by
  intro ids
  induction ids with
  | nil => intro st; rfl
  | cons i ids ih =>
    intro st
    cases h : env.getCompanyById i with
    | error e =>
      have hstep : syncOneCompany env cid i st = st := by
        unfold syncOneCompany
        rw [h]
      rw [List.foldl_cons, hstep, List.filter_cons]
      rw [if_neg (by simp [h, Except.isOk, Except.toBool])]
      exact ih st
    | ok v =>
      rw [List.foldl_cons, List.filter_cons]
      rw [if_pos (by simp [h, Except.isOk, Except.toBool])]
      rw [List.foldl_cons]
      exact ih _

/-- Claim C7: the per-company loop swallows each company's failure: the run
equals the run over just the successfully fetched ids (so a failing
sibling removes only itself), the contact table is never touched by the
company sync, and a contact event still completes with the contact's own
upsert intact whatever the company/deal fetches do. -/
theorem cascade_isolates_sibling_company_failures :
    (∀ (env : SyncEnv) (hcid : String) (cid : Nat) (st : SyncState),
       syncContactCompanies env hcid cid st =
         ((env.getContactCompanies hcid).filter
             (fun companyId => (env.getCompanyById companyId).isOk)).foldl
           (fun st companyId => syncOneCompany env cid companyId st) st) ∧
    (∀ (env : SyncEnv) (hcid : String) (cid : Nat) (st : SyncState),
       (syncContactCompanies env hcid cid st).contacts = st.contacts) ∧
    (∀ (env : SyncEnv) (contactId : String) (st : SyncState)
       (hc : HubSpotContactData),
       env.getContactById contactId = .ok hc →
       validateContactData hc = true →
       (processContactEventCascade env contactId st).1 = .ok () ∧
       (processContactEventCascade env contactId st).2.contacts =
         (upsertContact
           { firstname := hc.firstname, lastname := hc.lastname,
             email := hc.email, hubspotId := contactId }
           st.contacts st.nextId).1) := by
  refine ⟨?_, syncContactCompanies_contacts, ?_⟩
  · intro env hcid cid st
    exact syncCompanies_skip_failures env cid _ st
  · intro env contactId st hc hget hval
    unfold processContactEventCascade
    rw [hget]
    dsimp only
    rw [if_pos hval]
    refine ⟨rfl, ?_⟩
    rw [syncContactDeals_contacts, syncContactCompanies_contacts]

theorem cascade_isolates_sibling_company_failures_witness :
    envCompanyTwoFails.getCompanyById "y" = .error 500 ∧
      envCompanyTwoFails.getContactById "c1" = .ok demoHc ∧
      validateContactData demoHc = true ∧
      (processContactEventCascade envCompanyTwoFails "c1" stEmpty).1 = .ok () ∧
      (processContactEventCascade envCompanyTwoFails "c1" stEmpty).2.contacts =
        (upsertContact
          { firstname := demoHc.firstname, lastname := demoHc.lastname,
            email := demoHc.email, hubspotId := "c1" }
          stEmpty.contacts stEmpty.nextId).1 :=
  ⟨rfl, rfl, rfl,
    (cascade_isolates_sibling_company_failures.2.2 envCompanyTwoFails "c1"
      stEmpty demoHc rfl rfl).1,
    (cascade_isolates_sibling_company_failures.2.2 envCompanyTwoFails "c1"
      stEmpty demoHc rfl rfl).2⟩

/-- Claim C5 (code bug): the current contact path never writes the local
store — the happy-path upsert is commented out, the Moca-down branch is
unreachable, and `syncContactToMoca`'s `syncStatus`/`syncedAt` updates
are commented out — so no contact is upserted and no failed-sync outcome
is ever recorded, contrary to the documented behavior. -/
theorem current_contact_path_never_writes_local_store :
    ∀ (env : SyncEnv) (objectId : String) (st : SyncState),
      (processContactEventCurrent env objectId st).state = st := by
  intro env oid st
  unfold processContactEventCurrent
  cases env.getContactById oid with
  | error e => rfl
  | ok hc =>
    dsimp only
    split
    · rfl
    · split
      · rfl
      · rw [if_neg (by simp [mocaGateValue])]
        unfold syncContactToMoca
        cases env.mocaSyncContact hc <;> rfl

/-- Claim C10: the downstream health probes (`MocaService.ping` and
`WebhookService.mocaHealh`) always report the system up, and the
"Moca down — upsert locally and skip" branch of the current contact
path never executes. -/
theorem moca_probe_always_up_and_skip_branch_dead :
    mocaPing = true ∧ mocaHealh = true ∧
      ∀ (env : SyncEnv) (objectId : String) (st : SyncState),
        (processContactEventCurrent env objectId st).skippedForHealth = false := by
  refine ⟨rfl, rfl, ?_⟩
  intro env oid st
  unfold processContactEventCurrent
  cases env.getContactById oid with
  | error e => rfl
  | ok hc =>
    dsimp only
    split
    · rfl
    · split
      · rfl
      · rw [if_neg (by simp [mocaGateValue])]

/-! ### Retry-loop lemmas -/

lemma range_map_pow_cons (rd a n : Nat) :
    (List.range (n + 1)).map (fun i => rd * 2 ^ (a + i)) =
      rd * 2 ^ a :: (List.range n).map (fun i => rd * 2 ^ (a + 1 + i)) := by
  rw [List.range_succ_eq_map, List.map_cons, List.map_map]
  refine congrArg₂ List.cons ?_ ?_
  · simp
  · apply List.map_congr_left
    intro i _
    show rd * 2 ^ (a + Nat.succ i) = rd * 2 ^ (a + 1 + i)
    have h : a + Nat.succ i = a + 1 + i := by omega
    rw [h]

lemma getContactByIdGo_const_other {α : Type} (rd : Nat)
    (resp : Nat → FetchOutcome α) (s o : Option Nat)
    (hs429 : s ≠ some 429) (hs404 : s ≠ some 404)
    (hresp : ∀ n, resp n = .err s o) :
    ∀ (remaining a : Nat), 1 ≤ remaining →
      getContactByIdGo rd resp remaining (a + 1) =
        ⟨.error 503, remaining,
          (List.range (remaining - 1)).map (fun i => rd * 2 ^ (a + i))⟩ := by
  intro remaining
  induction remaining with
  | zero => intro a h; omega
  | succ rem ih =>
    intro a _
    rw [getContactByIdGo, hresp]
    dsimp only
    rw [if_neg hs429, if_neg hs404]
    cases rem with
    | zero => rw [if_pos rfl]; simp
    | succ rem' =>
      rw [if_neg (Nat.succ_ne_zero rem')]
      rw [ih (a + 1) (by omega)]
      dsimp only
      simp only [Nat.add_sub_cancel]
      rw [range_map_pow_cons]

lemma getContactByIdGo_const_429 {α : Type} (rd : Nat)
    (resp : Nat → FetchOutcome α)
    (hresp : ∀ n, resp n = .err (some 429) none) :
    ∀ (remaining a : Nat),
      getContactByIdGo rd resp remaining (a + 1) =
        ⟨.error 503, remaining,
          (List.range remaining).map (fun i => rd * 2 ^ (a + i))⟩ := by
  intro remaining
  induction remaining with
  | zero => intro a; rfl
  | succ rem ih =>
    intro a
    rw [getContactByIdGo, hresp]
    dsimp only
    rw [if_pos rfl]
    rw [ih (a + 1)]
    dsimp only
    simp only [Nat.add_sub_cancel]
    rw [range_map_pow_cons]

lemma getContactById_const_404 {α : Type} (ra rd : Nat)
    (resp : Nat → FetchOutcome α) (o : Option Nat)
    (hra : 1 ≤ ra) (h1 : resp 1 = .err (some 404) o) :
    getContactById ra rd resp = ⟨.error 404, 1, []⟩ := by
  unfold getContactById
  cases ra with
  | zero => omega
  | succ n =>
    rw [getContactByIdGo, h1]
    dsimp only
    rw [if_neg (by decide), if_pos rfl]

lemma getContactById_429_retryAfter {α : Type} (ra rd raSecs : Nat)
    (resp : Nat → FetchOutcome α)
    (hra : 1 ≤ ra) (h1 : resp 1 = .err (some 429) (some raSecs)) :
    (getContactById ra rd resp).delays.head? = some (raSecs * 1000) := by
  unfold getContactById
  cases ra with
  | zero => omega
  | succ n =>
    rw [getContactByIdGo, h1]
    dsimp only
    rw [if_pos rfl]
    rfl

lemma chain_le_map_range_pow (rd a n : Nat) :
    List.Chain' (· ≤ ·) ((List.range n).map (fun i => rd * 2 ^ (a + i))) := by
  rw [List.chain'_map]
  cases n with
  | zero => simp
  | succ m =>
    rw [List.chain'_range_succ]
    intro i _
    exact Nat.mul_le_mul_left rd
      (Nat.pow_le_pow_right (by norm_num) (by omega))

lemma retryRun_nonretryable {α : Type} (cfg : RetryOptions)
    (resp : Nat → Except HsError α) (e : HsError)
    (hmax : 1 ≤ cfg.maxAttempts) (h1 : resp 1 = .error e)
    (hnr : isRetryableError cfg e = false) :
    retryRun cfg resp = ⟨.error e, 1, []⟩ := by
  unfold retryRun
  cases hM : cfg.maxAttempts with
  | zero => omega
  | succ n =>
    rw [retryGo, h1]
    dsimp only
    rw [if_pos (by simp [hnr])]

lemma retryGo_const_retryable {α : Type} (cfg : RetryOptions)
    (resp : Nat → Except HsError α) (e : HsError)
    (hresp : ∀ n, resp n = .error e)
    (hret : isRetryableError cfg e = true) :
    ∀ (fuel attempt delay : Nat),
      attempt + fuel = cfg.maxAttempts + 1 → 1 ≤ fuel →
      (retryGo cfg resp fuel attempt delay).result = .error e ∧
        (retryGo cfg resp fuel attempt delay).invocations = fuel ∧
        (retryGo cfg resp fuel attempt delay).delays =
          decoratorDelays cfg delay (fuel - 1) := by
  intro fuel
  induction fuel with
  | zero => intro attempt delay _ h; omega
  | succ k ih =>
    intro attempt delay hsum _
    rw [retryGo, hresp]
    dsimp only
    by_cases hA : attempt = cfg.maxAttempts
    · have hk : k = 0 := by omega
      subst hk
      rw [if_pos (by simp [hA])]
      exact ⟨rfl, rfl, by simp [decoratorDelays]⟩
    · rw [if_neg (by simp [hA, hret])]
      have hk : 1 ≤ k := by omega
      obtain ⟨hr, hi, hd⟩ :=
        ih (attempt + 1) (min (delay * cfg.backoffMultiplier) cfg.maxDelay)
          (by omega) hk
      refine ⟨hr, by simp [hi], ?_⟩
      dsimp only
      rw [hd]
      cases k with
      | zero => omega
      | succ k' => rfl

lemma retryRun_const_retryable {α : Type} (cfg : RetryOptions)
    (resp : Nat → Except HsError α) (e : HsError)
    (hmax : 1 ≤ cfg.maxAttempts)
    (hresp : ∀ n, resp n = .error e)
    (hret : isRetryableError cfg e = true) :
    (retryRun cfg resp).result = .error e ∧
      (retryRun cfg resp).invocations = cfg.maxAttempts ∧
      (retryRun cfg resp).delays =
        decoratorDelays cfg cfg.initialDelay (cfg.maxAttempts - 1) :=
  retryGo_const_retryable cfg resp e hresp hret cfg.maxAttempts 1
    cfg.initialDelay (by omega) hmax

/-- Claim C4 counterexample: a call that fails with HTTP 400 — a 4xx that is
neither 429 nor 404 — on every attempt is invoked three times by
`getContactById` at the default settings, not exactly once as the claim
states for "any other 4xx status". -/
theorem retry_policy_4xx_counterexample :
    (getContactById hubspotRetryAttemptsDefault hubspotRetryDelayDefault
        (fun _ => FetchOutcome.err (α := Unit) (some 400) none)).invocations = 3 ∧
      ¬((getContactById hubspotRetryAttemptsDefault hubspotRetryDelayDefault
        (fun _ => FetchOutcome.err (α := Unit) (some 400) none)).invocations = 1) := by
  exact ⟨rfl, by decide⟩

/-- Claim C4 amended: the `Retry` decorator invokes a non-retryable error
(not a `HubSpotApiError`, or `retryable` unset and status outside
{429,500,502,503,504} — hence every 4xx including 404, but also e.g.
501) exactly once, and a retryable one up to `maxAttempts` (default 3)
times with non-decreasing delays; `getContactById` invokes only 404
exactly once — a 429 and every other failure, *including any other
4xx*, is retried up to `retryAttempts` times with non-decreasing
delays. -/
theorem retry_classification_amended :
    (∀ (cfg : RetryOptions) (resp : Nat → Except HsError Unit) (e : HsError),
        1 ≤ cfg.maxAttempts → resp 1 = .error e →
        isRetryableError cfg e = false →
        retryRun cfg resp = ⟨.error e, 1, []⟩) ∧
    (∀ (resp : Nat → Except HsError Unit) (e : HsError),
        (∀ n, resp n = .error e) →
        isRetryableError defaultRetryOptions e = true →
        (retryRun defaultRetryOptions resp).invocations =
            defaultRetryOptions.maxAttempts ∧
          (retryRun defaultRetryOptions resp).delays = [2000, 4000] ∧
          List.Chain' (· ≤ ·) (retryRun defaultRetryOptions resp).delays) ∧
    (∀ (ra rd : Nat) (resp : Nat → FetchOutcome Unit) (o : Option Nat),
        1 ≤ ra → resp 1 = .err (some 404) o →
        getContactById ra rd resp = ⟨.error 404, 1, []⟩) ∧
    (∀ (ra rd : Nat) (resp : Nat → FetchOutcome Unit),
        (∀ n, resp n = .err (some 429) none) →
        (getContactById ra rd resp).invocations = ra ∧
          List.Chain' (· ≤ ·) (getContactById ra rd resp).delays) ∧
    (∀ (ra rd : Nat) (resp : Nat → FetchOutcome Unit) (s o : Option Nat),
        s ≠ some 429 → s ≠ some 404 → (∀ n, resp n = .err s o) → 1 ≤ ra →
        (getContactById ra rd resp).invocations = ra ∧
          List.Chain' (· ≤ ·) (getContactById ra rd resp).delays) := by
  refine ⟨retryRun_nonretryable, ?_, getContactById_const_404, ?_, ?_⟩
  · intro resp e hresp hret
    obtain ⟨hr, hi, hd⟩ :=
      retryRun_const_retryable defaultRetryOptions resp e (by decide) hresp hret
    have hlist : (retryRun defaultRetryOptions resp).delays = [2000, 4000] := by
      rw [hd]; rfl
    refine ⟨hi, hlist, ?_⟩
    rw [hlist]
    simp
  · intro ra rd resp hresp
    have h : getContactByIdGo rd resp ra 1 =
        ⟨.error 503, ra, (List.range ra).map (fun i => rd * 2 ^ (0 + i))⟩ :=
      getContactByIdGo_const_429 rd resp hresp ra 0
    unfold getContactById
    rw [h]
    exact ⟨rfl, chain_le_map_range_pow rd 0 ra⟩
  · intro ra rd resp s o hs429 hs404 hresp hra
    have h : getContactByIdGo rd resp ra 1 =
        ⟨.error 503, ra, (List.range (ra - 1)).map (fun i => rd * 2 ^ (0 + i))⟩ :=
      getContactByIdGo_const_other rd resp s o hs429 hs404 hresp ra 0 hra
    unfold getContactById
    rw [h]
    exact ⟨rfl, chain_le_map_range_pow rd 0 (ra - 1)⟩

theorem retry_classification_amended_witness :
    retryRun defaultRetryOptions
        (fun _ => Except.error (α := Unit) ⟨true, 404, false⟩) =
      ⟨.error ⟨true, 404, false⟩, 1, []⟩ ∧
    (retryRun defaultRetryOptions
        (fun _ => Except.error (α := Unit) ⟨true, 500, false⟩)).invocations =
      defaultRetryOptions.maxAttempts ∧
    getContactById 3 1000
        (fun _ => FetchOutcome.err (α := Unit) (some 404) none) =
      ⟨.error 404, 1, []⟩ ∧
    (getContactById 3 1000
        (fun _ => FetchOutcome.err (α := Unit) (some 429) none)).invocations = 3 ∧
    (getContactById 3 1000
        (fun _ => FetchOutcome.err (α := Unit) (some 400) none)).invocations = 3 :=
  ⟨retry_classification_amended.1 _ _ _ (by decide) rfl (by decide),
    (retry_classification_amended.2.1 _ _ (fun _ => rfl) (by decide)).1,
    retry_classification_amended.2.2.1 3 1000 _ none (by decide) rfl,
    (retry_classification_amended.2.2.2.1 3 1000 _ (fun _ => rfl)).1,
    (retry_classification_amended.2.2.2.2 3 1000 _ (some 400) none
      (by decide) (by decide) (fun _ => rfl) (by decide)).1⟩

/-- Claim C8 counterexample: `getCompanyById` invokes its underlying SDK call
exactly once even on a retryable 503 failure — it is not wrapped in any
retry logic, while the configured attempt limit is 3. -/
theorem client_retry_coverage_counterexample :
    (getCompanyById (FetchOutcome.err (some 503) none)).invocations = 1 ∧
      (getCompanyById (FetchOutcome.err (some 503) none)).result = .error 503 ∧
      hubspotRetryAttemptsDefault = 3 ∧ (1 : Nat) ≠ 3 :=
  ⟨rfl, rfl, rfl, by decide⟩

/-- Claim C8 amended: only `getContactById` retries (up to `retryAttempts`
times on repeated failure); `getCompanyById`, `getDealById` and
`getLineItemById` execute the underlying call exactly once whatever the
outcome — and the `Retry` decorator, though defined, is applied to no
call site. -/
theorem client_retry_coverage_amended :
    (∀ r, (getCompanyById r).invocations = 1) ∧
    (∀ r, (getDealById r).invocations = 1) ∧
    (∀ r, (getLineItemById r).invocations = 1) ∧
    (∀ (ra rd : Nat) (resp : Nat → FetchOutcome HubSpotContactData),
        1 ≤ ra → (∀ n, resp n = .err (some 503) none) →
        (getContactById ra rd resp).invocations = ra) := by
  refine ⟨fun r => ?_, fun r => ?_, fun r => ?_, ?_⟩
  · cases r <;> rfl
  · cases r <;> rfl
  · cases r <;> rfl
  · intro ra rd resp hra hresp
    have h : getContactByIdGo rd resp ra 1 =
        ⟨.error 503, ra, (List.range (ra - 1)).map (fun i => rd * 2 ^ (0 + i))⟩ :=
      getContactByIdGo_const_other rd resp (some 503) none (by decide)
        (by decide) hresp ra 0 hra
    unfold getContactById
    rw [h]

theorem client_retry_coverage_amended_witness :
    (getContactById 3 1000
        (fun _ => FetchOutcome.err (α := HubSpotContactData)
          (some 503) none)).invocations = 3 :=
  client_retry_coverage_amended.2.2.2 3 1000 _ (by decide) (fun _ => rfl)

/-- Claim C9 counterexample: with the decorator defaults, an always-429
retryable error yields sleeps of 2000 ms then 4000 ms — the first sleep
is `min(initialDelay * multiplier, maxDelay)` = 2000 ms, not
`initialDelay * multiplier^(1-1)` = 1000 ms as claimed. -/
theorem backoff_formula_counterexample :
    (retryRun defaultRetryOptions
        (fun _ => Except.error (α := Unit) ⟨true, 429, false⟩)).delays =
      [2000, 4000] ∧
      defaultRetryOptions.initialDelay *
          defaultRetryOptions.backoffMultiplier ^ (1 - 1) = 1000 ∧
      (2000 : Nat) ≠ 1000 :=
  ⟨rfl, rfl, by decide⟩

/-- Claim C9 amended: in `getContactById`, a failure without a Retry-After
hint waits `retryDelay * 2^(attempt-1)` ms (default retryDelay 1000 ms,
no `maxDelay` cap exists in that loop), and a 429 with a Retry-After
header waits `retryAfter * 1000` ms (i.e. retryAfter seconds); in the
`Retry` decorator, the sleep before attempt n+1 is
`min(initialDelay * multiplier^n, maxDelay)` — one multiplier step ahead
of the claimed formula (2000 ms then 4000 ms at the defaults) — and the
Retry-After header is never consulted. -/
theorem backoff_formula_amended :
    (∀ (ra rd : Nat) (resp : Nat → FetchOutcome Unit) (s o : Option Nat),
        s ≠ some 429 → s ≠ some 404 → (∀ n, resp n = .err s o) → 1 ≤ ra →
        (getContactById ra rd resp).delays =
          (List.range (ra - 1)).map (fun i => rd * 2 ^ i)) ∧
    (∀ (ra rd : Nat) (resp : Nat → FetchOutcome Unit),
        (∀ n, resp n = .err (some 429) none) →
        (getContactById ra rd resp).delays =
          (List.range ra).map (fun i => rd * 2 ^ i)) ∧
    (∀ (ra rd raSecs : Nat) (resp : Nat → FetchOutcome Unit),
        1 ≤ ra → resp 1 = .err (some 429) (some raSecs) →
        (getContactById ra rd resp).delays.head? = some (raSecs * 1000)) ∧
    (∀ (resp : Nat → Except HsError Unit) (e : HsError),
        (∀ n, resp n = .error e) →
        isRetryableError defaultRetryOptions e = true →
        (retryRun defaultRetryOptions resp).delays = [2000, 4000]) := by
  refine ⟨?_, ?_, getContactById_429_retryAfter, ?_⟩
  · intro ra rd resp s o hs429 hs404 hresp hra
    have h : getContactByIdGo rd resp ra 1 =
        ⟨.error 503, ra, (List.range (ra - 1)).map (fun i => rd * 2 ^ (0 + i))⟩ :=
      getContactByIdGo_const_other rd resp s o hs429 hs404 hresp ra 0 hra
    unfold getContactById
    rw [h]
    simp
  · intro ra rd resp hresp
    have h : getContactByIdGo rd resp ra 1 =
        ⟨.error 503, ra, (List.range ra).map (fun i => rd * 2 ^ (0 + i))⟩ :=
      getContactByIdGo_const_429 rd resp hresp ra 0
    unfold getContactById
    rw [h]
    simp
  · intro resp e hresp hret
    obtain ⟨_, _, hd⟩ :=
      retryRun_const_retryable defaultRetryOptions resp e (by decide) hresp hret
    rw [hd]
    rfl

theorem backoff_formula_amended_witness :
    (getContactById 3 1000
        (fun _ => FetchOutcome.err (α := Unit) (some 500) none)).delays =
      (List.range (3 - 1)).map (fun i => 1000 * 2 ^ i) ∧
    (getContactById 3 1000
        (fun _ => FetchOutcome.err (α := Unit)
          (some 429) (some 7))).delays.head? = some (7 * 1000) ∧
    (retryRun defaultRetryOptions
        (fun _ => Except.error (α := Unit) ⟨true, 503, false⟩)).delays =
      [2000, 4000] :=
  ⟨backoff_formula_amended.1 3 1000 _ (some 500) none (by decide) (by decide)
      (fun _ => rfl) (by decide),
    backoff_formula_amended.2.2.1 3 1000 7 _ (by decide) rfl,
    backoff_formula_amended.2.2.2 _ _ (fun _ => rfl) (by decide)⟩

end MocaNest
